/-
Verification of the click-ai ingestion/enrichment data plane and session
materialization engine against its natural-language specification.

The Python sources are shallowly embedded:
  * `Enricher`  — src/worker/embedding-enricher/enricher.py
  * `Loader`    — src/worker/s3-loader/loader.py
  * `Sessions`  — src/agent-plane/server/session_builder.py and sessions.py

Machine floats are modelled by ℚ where the code only compares, copies or
promotes values; timestamps are nanoseconds since epoch as ℕ; ClickHouse
tables are lists of rows; exceptions are `Except String`.
-/
import Mathlib

/- ════════════════════════ Definitions ════════════════════════ -/

namespace Enricher

/-- A row of `otel_traces` as fetched by `FETCH_QUERY` in enricher.py:
the columns the enricher reads, with attribute maps as insertion-ordered
association lists (Python dicts preserve insertion order). -/
structure SpanRow where
  Timestamp : Nat
  TraceId : String
  SpanId : String
  ParentSpanId : String
  SpanName : String
  SpanKind : String
  ServiceName : String
  Duration : Nat
  StatusCode : String
  StatusMessage : String
  ResourceAttributes : List (String × String)
  SpanAttributes : List (String × String)
deriving DecidableEq, Repr

/-- Round n / d to the nearest integer, ties to even — the rounding CPython's
`format(x, ".1f")` applies to the decimal digits (modelled exactly at inputs
where the intermediate double is exact). -/
def roundHalfEven (n d : Nat) : Nat :=
  let q := n / d
  let r := n % d
  if 2 * r < d then q
  else if 2 * r > d then q + 1
  else if q % 2 = 0 then q else q + 1

/-- `f"{duration_ms:.1f}"` where `duration_ms = Duration / 1_000_000`:
the duration in tenths of a millisecond, rendered as `<whole>.<tenth>`. -/
def formatDurationMs (durationNs : Nat) : String :=
  let tenths := roundHalfEven durationNs 100000
  toString (tenths / 10) ++ "." ++ toString (tenths % 10)

/-- `build_embedding_text` from enricher.py: service, span, kind, status,
duration, optional message, then each span attribute in insertion order,
joined by single spaces. -/
def build_embedding_text (row : SpanRow) : String :=
  let parts : List String :=
    ["service=" ++ row.ServiceName,
     "span=" ++ row.SpanName,
     "kind=" ++ row.SpanKind,
     "status=" ++ row.StatusCode,
     "duration=" ++ formatDurationMs row.Duration ++ "ms"]
  let parts := parts ++ (if row.StatusMessage ≠ "" then ["message=" ++ row.StatusMessage] else [])
  let parts := parts ++ row.SpanAttributes.map (fun kv => kv.1 ++ "=" ++ kv.2)
  String.intercalate " " parts

/-- The literal span of spec scenario 8.4. -/
def scenarioSpan : SpanRow :=
  { Timestamp := 0
    TraceId := ""
    SpanId := ""
    ParentSpanId := ""
    SpanName := "verify_jwt"
    SpanKind := "INTERNAL"
    ServiceName := "auth-service"
    Duration := 1500000
    StatusCode := "OK"
    StatusMessage := ""
    ResourceAttributes := []
    SpanAttributes := [("user.id", "u1")] }

/-- Bytewise strict comparison of character lists — the order ClickHouse uses
for `String` columns in tuple comparisons and ORDER BY. -/
def charLtb (a b : Char) : Bool := a.toNat < b.toNat

def strLtb : List Char → List Char → Bool
  | [], [] => false
  | [], _ :: _ => true
  | _ :: _, [] => false
  | a :: as, b :: bs => charLtb a b || (a == b && strLtb as bs)

/-- The tuple comparison `(Timestamp, SpanId) > ({ts}, {span_id})` of
`FETCH_QUERY`: `keyLtb a b` holds when `a` is strictly below `b` in the
lexicographic order on `(timestamp, span_id)`. -/
def keyLtb (a b : Nat × String) : Bool :=
  decide (a.1 < b.1) || (decide (a.1 = b.1) && strLtb a.2.data b.2.data)

/-- Non-strict lexicographic order on watermark keys. -/
def keyLe (a b : Nat × String) : Prop := keyLtb a b = true ∨ a = b

def spanKey (r : SpanRow) : Nat × String := (r.Timestamp, r.SpanId)

/-- `ORDER BY Timestamp, SpanId` on rows. -/
def rowLe (r s : SpanRow) : Prop := keyLtb (spanKey s) (spanKey r) = false

instance : DecidableRel rowLe :=
  fun r s => inferInstanceAs (Decidable (keyLtb (spanKey s) (spanKey r) = false))

/-- `fetch_new_rows` from enricher.py: rows of `otel_traces` strictly past the
watermark, ordered by `(Timestamp, SpanId)`, limited to `BATCH_SIZE`. -/
def fetch_new_rows (wh : List SpanRow) (wm : Nat × String) (limit : Nat) : List SpanRow :=
  (List.insertionSort rowLe (wh.filter (fun r => keyLtb wm (spanKey r)))).take limit

/-- The watermark transition of one successful enrichment cycle in `run`:
fetch the slice past the watermark and, when it is non-empty, advance the
watermark to the last row's `(Timestamp, SpanId)` as `update_watermark` does. -/
def enrichStep (wh : List SpanRow) (limit : Nat) (wm : Nat × String) : Nat × String :=
  match (fetch_new_rows wh wm limit).getLast? with
  | none => wm
  | some r => spanKey r

/-- A row of `otel_traces_enriched`: the base columns plus
`(EmbeddingText, Embedding)`. -/
structure EnrichedRow where
  base : SpanRow
  EmbeddingText : String
  Embedding : List Int
deriving DecidableEq, Repr

/-- `enrich_and_insert` from enricher.py: build the embedding texts, encode
them (the model may raise), then insert the enriched rows (the insert may
raise). Any raised exception propagates as `.error`. -/
def enrich_and_insert (encode : List String → Except String (List (List Int)))
    (insertOutcome : Except String Unit) (rows : List SpanRow) :
    Except String (List EnrichedRow) :=
  let texts := rows.map build_embedding_text
  match encode texts with
  | .error e => .error e
  | .ok embeddings =>
    match insertOutcome with
    | .error e => .error e
    | .ok _ =>
      .ok ((rows.zip (texts.zip embeddings)).map fun p => ⟨p.1, p.2.1, p.2.2⟩)

/-- Enricher-owned state: the global watermark plus `otel_traces_enriched`. -/
structure EnricherState where
  wm : Nat × String
  enriched : List EnrichedRow
deriving DecidableEq, Repr

/-- One iteration of the compute stage of `run`: take the prefetched slice
(the slice fetched past the current watermark), call `enrich_and_insert`,
and only on success update the watermark to the last row's key; the
`except` branch of `run` leaves all state untouched. -/
def compute_cycle (encode : List String → Except String (List (List Int)))
    (insertOutcome : Except String Unit) (wh : List SpanRow) (limit : Nat)
    (st : EnricherState) : EnricherState :=
  match (fetch_new_rows wh st.wm limit).getLast? with
  | none => st
  | some last =>
    match enrich_and_insert encode insertOutcome (fetch_new_rows wh st.wm limit) with
    | .error _ => st
    | .ok newRows => { wm := spanKey last, enriched := st.enriched ++ newRows }

/-- A one-row warehouse used to instantiate the enricher theorems. -/
def sampleWarehouse : List SpanRow :=
  [{ scenarioSpan with Timestamp := 5, SpanId := "aa" }]

end Enricher

namespace Loader

/-- An OTLP NumberDataPoint as `_extract_data_points` reads it: the
`time_unix_nano` field and the `value` oneof (`as_double` left, `as_int`
right); doubles are modelled by ℚ. -/
structure NumberDataPoint where
  timeUnixNano : Nat
  value : Option (ℚ ⊕ Int)
deriving DecidableEq, Repr

/-- protobuf accessor `dp.as_double`: the double when that oneof case is
set, else the field default `0.0`. -/
def NumberDataPoint.asDouble (dp : NumberDataPoint) : ℚ :=
  match dp.value with
  | some (Sum.inl d) => d
  | _ => 0

/-- protobuf accessor `dp.as_int`. -/
def NumberDataPoint.asInt (dp : NumberDataPoint) : Int :=
  match dp.value with
  | some (Sum.inr i) => i
  | _ => 0

/-- An OTLP histogram or summary data point as `_extract_data_points`
reads it: `time_unix_nano` and the optional `sum` field. -/
structure SumDataPoint where
  timeUnixNano : Nat
  sum : Option ℚ
deriving DecidableEq, Repr

/-- protobuf accessor `dp.sum` with its default `0.0`. -/
def SumDataPoint.sumValue (dp : SumDataPoint) : ℚ := dp.sum.getD 0

/-- The metric-data oneof cases `_extract_data_points` handles. -/
inductive MetricData
  | gauge (pts : List NumberDataPoint)
  | sum (pts : List NumberDataPoint)
  | histogram (pts : List SumDataPoint)
  | summary (pts : List SumDataPoint)
deriving DecidableEq, Repr

/-- `ts = utcfromtimestamp(dp.time_unix_nano / 1e9) if dp.time_unix_nano
else utcfromtimestamp(0)`, with timestamps kept in nanoseconds (epoch = 0). -/
def pointTime (t : Nat) : Nat := if t ≠ 0 then t else 0

/-- `val = dp.as_double if dp.as_double else float(dp.as_int)` — Python
truthiness on the double accessor. -/
def numberValue (dp : NumberDataPoint) : ℚ :=
  if dp.asDouble ≠ 0 then dp.asDouble else (dp.asInt : ℚ)

/-- `val = dp.sum if dp.sum else 0.0`. -/
def histogramValue (dp : SumDataPoint) : ℚ :=
  if dp.sumValue ≠ 0 then dp.sumValue else 0

/-- `_extract_data_points` from loader.py: the (timestamp, scalar value)
pairs of each branch (attribute extraction is identical across branches
and omitted). -/
def extract_data_points : MetricData → List (Nat × ℚ)
  | .gauge pts => pts.map (fun dp => (pointTime dp.timeUnixNano, numberValue dp))
  | .sum pts => pts.map (fun dp => (pointTime dp.timeUnixNano, numberValue dp))
  | .histogram pts => pts.map (fun dp => (pointTime dp.timeUnixNano, histogramValue dp))
  | .summary pts => pts.map (fun dp => (pointTime dp.timeUnixNano, histogramValue dp))

/-- Modelled from the spec's words, to compare with `extract_data_points`:
histogram and summary points expose the point's `sum` as the scalar value;
gauge and sum points take `as_double` when that oneof case is present,
otherwise `as_int` promoted to double; a point whose `time_unix_nano` is 0
takes the epoch as its timestamp. -/
def extract_data_points_spec : MetricData → List (Nat × ℚ)
  | .gauge pts => pts.map (fun dp =>
      (if dp.timeUnixNano = 0 then 0 else dp.timeUnixNano,
       match dp.value with
       | some (Sum.inl d) => d
       | _ => (dp.asInt : ℚ)))
  | .sum pts => pts.map (fun dp =>
      (if dp.timeUnixNano = 0 then 0 else dp.timeUnixNano,
       match dp.value with
       | some (Sum.inl d) => d
       | _ => (dp.asInt : ℚ)))
  | .histogram pts => pts.map (fun dp =>
      (if dp.timeUnixNano = 0 then 0 else dp.timeUnixNano, dp.sumValue))
  | .summary pts => pts.map (fun dp =>
      (if dp.timeUnixNano = 0 then 0 else dp.timeUnixNano, dp.sumValue))

/-- A file-watermark row as written by `record_watermark`. -/
structure WatermarkEntry where
  filename : String
  status : String
  rowCount : Nat
  errorMessage : String
deriving DecidableEq, Repr

/-- Signal-pipeline state: the watermark table and the warehouse table
(concatenation of inserted rows; row contents are opaque strings). -/
structure LoaderState where
  watermark : List WatermarkEntry
  warehouse : List String
deriving DecidableEq, Repr

/-- `get_processed_files`: the filenames present in the watermark table,
regardless of status. -/
def get_processed_files (wm : List WatermarkEntry) : List String :=
  wm.map (·.filename)

/-- The combined download/decode/insert outcome for one file: either the
decoded rows (all of which `insert_rows` writes, in batches) or the
message of the raised exception. -/
def FileEnv := String → Except String (List String)

/-- One downloader-parser future of `process_files_concurrent`: on success
insert the rows and record a `done` entry with the row count; on exception
record a `failed` entry carrying the error and insert nothing. -/
def processFile (env : FileEnv) (st : LoaderState) (key : String) : LoaderState :=
  match env key with
  | .ok rows =>
    { watermark := st.watermark ++ [⟨key, "done", rows.length, ""⟩]
      warehouse := st.warehouse ++ rows }
  | .error e =>
    { watermark := st.watermark ++ [⟨key, "failed", 0, e⟩]
      warehouse := st.warehouse }

/-- `process_files_concurrent` over a completion order of the batch: each
future's failure is caught and the loop continues with the other files. -/
def process_files_concurrent (env : FileEnv) (st : LoaderState)
    (newFiles : List String) : LoaderState :=
  newFiles.foldl (processFile env) st

/-- One poll cycle of `signal_loop`: load the processed set, enumerate the
listing, take the set difference and process the new files. -/
def signal_cycle (env : FileEnv) (listing : List String) (st : LoaderState) :
    LoaderState :=
  process_files_concurrent env st
    (listing.filter (fun f => f ∉ get_processed_files st.watermark))


end Loader


namespace Sessions

/-- A warehouse row as partition shipping sees it: its date partition
(`toDate(Timestamp)`, modelled as a day number), its timestamp, and its
service name. -/
structure WhRow where
  day : Nat
  timestamp : Nat
  service : String
deriving DecidableEq, Repr

/-- The master warehouse: active rows per table name. -/
def Master := String → List WhRow

/-- The `table_map` lookup `{"traces": "otel_traces", "logs": "otel_logs",
"metrics": "otel_metrics"}`. -/
def tableOf (signal : String) : Option String :=
  if signal = "traces" then some "otel_traces"
  else if signal = "logs" then some "otel_logs"
  else if signal = "metrics" then some "otel_metrics"
  else none

/-- `_date_range`: the partition ids (day numbers) covering `[start, end]`
inclusive. -/
def date_range (startDay endDay : Nat) : List Nat :=
  (List.range (endDay + 1 - startDay)).map (fun d => d + startDay)

/-- What FREEZE → copy parts → ATTACH lands in a session table: all active
master rows of the table whose date partition lies in the range. The
service filter plays no part at the part level, and no row cap applies. -/
def shipped_rows (master : Master) (table : String) (startDay endDay : Nat) : List WhRow :=
  (master table).filter (fun r => r.day ∈ date_range startDay endDay)

/-- The contents of the session table for `signal` after `build_session`
ran with the given arguments (empty when the signal was not selected:
its table is neither created nor shipped). The `services` argument is
accepted, as in the source, but never read by the function body. -/
def session_rows (master : Master) (services : List String)
    (signal_types : List String) (startDay endDay : Nat) (signal : String) :
    List WhRow :=
  match tableOf signal with
  | none => []
  | some table =>
    if signal ∈ signal_types then shipped_rows master table startDay endDay else []

/-- Step 6 of `build_session`: for each signal of `table_map` selected in
`signal_types`, `counts[signal]` is the row count of its session table. -/
def build_session_counts (master : Master) (services : List String)
    (signal_types : List String) (startDay endDay : Nat) (signal : String) :
    Option Nat :=
  match tableOf signal with
  | none => none
  | some table =>
    if signal ∈ signal_types then
      some (shipped_rows master table startDay endDay).length
    else none

/-- Scenario 8.5's warehouse: 50 spans of `auth-service` matching the
filters and 200 spans of another service, all inside the window's single
day partition. -/
def scenarioMaster : Master := fun table =>
  if table = "otel_traces" then
    List.replicate 50 ⟨0, 10, "auth-service"⟩ ++ List.replicate 200 ⟨0, 20, "checkout"⟩
  else []

/-- The parameters of `build_session(session_id, services, signal_types,
start, end)` as imported by sessions.py — all required, no defaults, no
`**kwargs`. -/
def build_session_params : List String :=
  ["session_id", "services", "signal_types", "start", "end"]

/-- The keyword arguments `_run_build` passes in its `build_session(...)`
call. -/
def run_build_kwargs : List String :=
  ["db_path", "services", "signal_types", "start", "end"]

/-- Python call binding for a function whose parameters are all required
positional-or-keyword, called with keywords only: the call binds exactly
when the keyword set equals the parameter set; otherwise a TypeError is
raised before the body runs. -/
def python_call_ok (params kwargs : List String) : Bool :=
  kwargs.all (fun k => k ∈ params) && params.all (fun p => p ∈ kwargs)

/-- The mutable descriptor fields `_run_build` touches. -/
structure Descriptor where
  status : String
  error : Option String
  manifest : Option Unit
deriving DecidableEq, Repr

/-- `create_session`: the descriptor is recorded with status `building`
before `_run_build` is scheduled. -/
def create_session : Descriptor :=
  { status := "building", error := none, manifest := none }

/-- `_run_build`: calls `build_session` with `run_build_kwargs`; a binding
failure raises TypeError inside the `try`, and any exception sets status
`error` with its message; a successful call would set status `ready` with
the manifest. `buildOutcome` is what the body of `build_session` would
return were it ever entered. -/
def run_build (buildOutcome : Except String Unit) (d : Descriptor) : Descriptor :=
  if python_call_ok build_session_params run_build_kwargs then
    match buildOutcome with
    | .ok _ => { d with status := "ready", manifest := some () }
    | .error e => { d with status := "error", error := some e }
  else
    { d with
        status := "error",
        error := some "TypeError: unexpected keyword argument db_path" }

/-- The state observed for session teardown: the databases on the session
ClickHouse, the files under SESSION_DIR, and the in-memory `_sessions`
registry. -/
structure PlatformState where
  sessionDbs : List String
  sessionFiles : List String
  registry : List (String × Descriptor)
deriving DecidableEq, Repr

/-- The session-ClickHouse effect of `build_session`: `CREATE DATABASE IF
NOT EXISTS session_<id>` plus the part shipping inside that database;
`build_session` writes nothing under SESSION_DIR. -/
def build_session_effect (sid : String) (st : PlatformState) : PlatformState :=
  { st with sessionDbs :=
      if ("session_" ++ sid) ∈ st.sessionDbs then st.sessionDbs
      else st.sessionDbs ++ ["session_" ++ sid] }

/-- `drop_session` from session_builder.py:
`DROP DATABASE IF EXISTS session_<id>`. -/
def drop_session (sid : String) (st : PlatformState) : PlatformState :=
  { st with sessionDbs := st.sessionDbs.filter (fun d => d ≠ "session_" ++ sid) }

/-- `delete_session` from sessions.py: unlink `<id>.duckdb` and
`<id>.duckdb.wal` under SESSION_DIR and delete the descriptor from
`_sessions`; the session ClickHouse database is not touched (the endpoint
never calls `drop_session`). -/
def delete_session (sid : String) (st : PlatformState) : PlatformState :=
  { st with
      sessionFiles := st.sessionFiles.filter
        (fun f => f ≠ sid ++ ".duckdb" ∧ f ≠ sid ++ ".duckdb.wal")
      registry := st.registry.filter (fun p => p.1 ≠ sid) }

/-- `get_session`: descriptor lookup by id (`none` is the 404 path). -/
def get_session (sid : String) (st : PlatformState) : Option Descriptor :=
  st.registry.lookup sid

/-- A concrete platform state holding one freshly created session `abc`. -/
def initialState : PlatformState :=
  { sessionDbs := [], sessionFiles := ["abc.duckdb"],
    registry := [("abc", create_session)] }

/-- A ClickHouse value in a sample row; `str(v)` stringifies it into the
manifest. -/
inductive CHVal
  | s (v : String)
  | n (v : Nat)
deriving DecidableEq, Repr

def CHVal.toStr : CHVal → String
  | .s v => v
  | .n v => toString v

/-- The results of the three queries `_build_manifest` issues per table;
each may raise. A sample result carries the column names with the rows. -/
structure TableQueries where
  count : Except String Nat
  cols : Except String (List (String × String))
  sample : Except String (List String × List (List CHVal))

def TABLES : List String := ["otel_traces", "otel_logs", "otel_metrics"]

/-- One manifest value: row count, `(name, type)` columns, and stringified
sample rows. -/
structure ManifestEntry where
  row_count : Nat
  columns : List (String × String)
  sample_rows : List (List (String × String))
deriving DecidableEq, Repr

/-- The per-table `try` block of `_build_manifest`: count (skipping the
table when it is 0), columns, then at most 3 sample rows with every value
stringified by `str`; any raised query — including the IndexError the
dict comprehension would raise were a sampled row wider than the column
names — skips the table silently. -/
def manifest_entry (q : TableQueries) : Option ManifestEntry :=
  match q.count with
  | .error _ => none
  | .ok c =>
    if c = 0 then none
    else
      match q.cols with
      | .error _ => none
      | .ok cols =>
        match q.sample with
        | .error _ => none
        | .ok (names, rows) =>
          if (rows.take 3).all (fun r => r.length ≤ names.length) then
            some { row_count := c, columns := cols,
                   sample_rows := (rows.take 3).map
                     (fun r => (names.zip r).map (fun p => (p.1, CHVal.toStr p.2))) }
          else none

/-- `_build_manifest`: each of the three base tables maps to its entry when
its `try` block completes with a nonzero count. -/
def build_manifest (env : String → TableQueries) : List (String × ManifestEntry) :=
  TABLES.filterMap (fun t => (manifest_entry (env t)).map (fun m => (t, m)))

/-- A concrete set of successful table queries. -/
def sampleQueries : TableQueries :=
  { count := .ok 2
    cols := .ok [("Timestamp", "DateTime64(9)")]
    sample := .ok (["Timestamp"], [[CHVal.n 1], [CHVal.n 2]]) }

end Sessions

/- ════════════════════════ Theorems ════════════════════════ -/

namespace Enricher

theorem strLtb_trans {a b c : List Char} (h1 : strLtb a b = true)
    (h2 : strLtb b c = true) : strLtb a c = true := by
  induction a generalizing b c with
  | nil =>
    cases b with
    | nil => simp [strLtb] at h1
    | cons x xs =>
      cases c with
      | nil => simp [strLtb] at h2
      | cons z zs => simp [strLtb]
  | cons y ys ih =>
    cases b with
    | nil => simp [strLtb] at h1
    | cons x xs =>
      cases c with
      | nil => simp [strLtb] at h2
      | cons z zs =>
        simp only [strLtb, Bool.or_eq_true, Bool.and_eq_true, beq_iff_eq,
          charLtb, decide_eq_true_eq] at h1 h2 ⊢
        rcases h1 with h1 | ⟨rfl, h1⟩
        · rcases h2 with h2 | ⟨rfl, h2⟩
          · exact Or.inl (Nat.lt_trans h1 h2)
          · exact Or.inl h1
        · rcases h2 with h2 | ⟨rfl, h2⟩
          · exact Or.inl h2
          · exact Or.inr ⟨rfl, ih h1 h2⟩

theorem keyLtb_trans {a b c : Nat × String} (h1 : keyLtb a b = true)
    (h2 : keyLtb b c = true) : keyLtb a c = true := by
  simp only [keyLtb, Bool.or_eq_true, Bool.and_eq_true, decide_eq_true_eq] at h1 h2 ⊢
  rcases h1 with h1 | ⟨e1, s1⟩ <;> rcases h2 with h2 | ⟨e2, s2⟩
  · exact Or.inl (Nat.lt_trans h1 h2)
  · exact Or.inl (by omega)
  · exact Or.inl (by omega)
  · exact Or.inr ⟨by omega, strLtb_trans s1 s2⟩

theorem keyLe_trans {a b c : Nat × String} (h1 : keyLe a b) (h2 : keyLe b c) :
    keyLe a c := by
  rcases h1 with h1 | rfl
  · rcases h2 with h2 | rfl
    · exact Or.inl (keyLtb_trans h1 h2)
    · exact Or.inl h1
  · exact h2

theorem mem_fetch_gt {wh : List SpanRow} {wm : Nat × String} {limit : Nat} {r : SpanRow}
    (h : r ∈ fetch_new_rows wh wm limit) : keyLtb wm (spanKey r) = true := by
  have h1 := List.mem_of_mem_take h
  rw [List.mem_insertionSort] at h1
  exact (List.mem_filter.mp h1).2

theorem enrichStep_ge (wh : List SpanRow) (limit : Nat) (wm : Nat × String) :
    keyLe wm (enrichStep wh limit wm) := by
  unfold enrichStep
  cases h : (fetch_new_rows wh wm limit).getLast? with
  | none => exact Or.inr rfl
  | some r => exact Or.inl (mem_fetch_gt (List.mem_of_getLast?_eq_some h))

/-- C3: the enricher's global watermark sequence is monotonically
non-decreasing under the lexicographic order on `(timestamp, span_id)`:
every watermark value written later in the chain of cycles — each cycle
fetching strictly above the previous watermark, ordered by
`(Timestamp, SpanId)`, and writing the last row's key — is `≥` every
earlier value. -/
theorem watermark_monotone (wh : List SpanRow) (limit : Nat) (wm : Nat × String)
    (i j : Nat) (h : i ≤ j) :
    keyLe ((enrichStep wh limit)^[i] wm) ((enrichStep wh limit)^[j] wm) := by
  induction j with
  | zero =>
    have h0 : i = 0 := Nat.le_zero.mp h
    subst h0
    exact Or.inr rfl
  | succ k ih =>
    rcases Nat.le_succ_iff.mp h with h' | rfl
    · refine keyLe_trans (ih h') ?_
      rw [Function.iterate_succ_apply']
      exact enrichStep_ge wh limit _
    · exact Or.inr rfl

/-- Witness for C3 on a concrete one-row warehouse. -/
theorem watermark_monotone_witness :
    keyLe ((enrichStep sampleWarehouse 10)^[0] (0, ""))
      ((enrichStep sampleWarehouse 10)^[1] (0, "")) :=
  watermark_monotone sampleWarehouse 10 (0, "") 0 1 (by decide)

/-- C4: `build_embedding_text` is a pure deterministic function of the span's
core fields (service, span name, kind, status code, status message, duration,
span attributes), and on the literal span of scenario 8.4 it returns exactly
`"service=auth-service span=verify_jwt kind=INTERNAL status=OK duration=1.5ms user.id=u1"`. -/
theorem build_embedding_text_spec :
    build_embedding_text scenarioSpan =
      "service=auth-service span=verify_jwt kind=INTERNAL status=OK duration=1.5ms user.id=u1" ∧
    ∀ r1 r2 : SpanRow, r1.ServiceName = r2.ServiceName → r1.SpanName = r2.SpanName →
      r1.SpanKind = r2.SpanKind → r1.StatusCode = r2.StatusCode →
      r1.StatusMessage = r2.StatusMessage → r1.Duration = r2.Duration →
      r1.SpanAttributes = r2.SpanAttributes →
      build_embedding_text r1 = build_embedding_text r2 := by
  refine ⟨by decide, ?_⟩
  intro r1 r2 h1 h2 h3 h4 h5 h6 h7
  unfold build_embedding_text
  rw [h1, h2, h3, h4, h5, h6, h7]

/-- Witness for C4: two spans differing only in a non-core field (TraceId)
produce the same embedding text. -/
theorem build_embedding_text_spec_witness :
    build_embedding_text scenarioSpan =
      build_embedding_text { scenarioSpan with TraceId := "aaaa" } :=
  build_embedding_text_spec.2 scenarioSpan { scenarioSpan with TraceId := "aaaa" }
    rfl rfl rfl rfl rfl rfl rfl

/-- C5: if any step of an enrichment cycle raises (encode or insert, i.e.
`enrich_and_insert` returns an error), the cycle leaves the enricher state —
in particular the watermark — unchanged, and the next cycle re-reads the
exact same slice from the old watermark. -/
theorem cycle_error_retries_same_slice
    (encode : List String → Except String (List (List Int)))
    (insertOutcome : Except String Unit) (wh : List SpanRow) (limit : Nat)
    (st : EnricherState) (e : String)
    (h : enrich_and_insert encode insertOutcome (fetch_new_rows wh st.wm limit) =
      .error e) :
    compute_cycle encode insertOutcome wh limit st = st ∧
      fetch_new_rows wh (compute_cycle encode insertOutcome wh limit st).wm limit =
        fetch_new_rows wh st.wm limit := by
  have hc : compute_cycle encode insertOutcome wh limit st = st := by
    unfold compute_cycle
    rw [h]
    cases (fetch_new_rows wh st.wm limit).getLast? <;> rfl
  exact ⟨hc, by rw [hc]⟩

/-- Witness for C5: a concrete cycle whose encoder raises. -/
theorem cycle_error_retries_same_slice_witness :
    compute_cycle (fun _ => .error "boom") (.ok ()) sampleWarehouse 10
        ⟨(0, ""), []⟩ = ⟨(0, ""), []⟩ ∧
      fetch_new_rows sampleWarehouse
        (compute_cycle (fun _ => .error "boom") (.ok ()) sampleWarehouse 10
          ⟨(0, ""), []⟩).wm 10 =
        fetch_new_rows sampleWarehouse (0, "") 10 :=
  cycle_error_retries_same_slice (fun _ => .error "boom") (.ok ())
    sampleWarehouse 10 ⟨(0, ""), []⟩ "boom" (by rfl)

end Enricher

namespace Loader

theorem numberValue_eq_spec (dp : NumberDataPoint) :
    numberValue dp =
      match dp.value with
      | some (Sum.inl d) => d
      | _ => (dp.asInt : ℚ) := by
  rcases dp with ⟨t, v⟩
  rcases v with _ | v
  · simp [numberValue, NumberDataPoint.asDouble, NumberDataPoint.asInt]
  · rcases v with d | i
    · by_cases hd : d = 0
      · subst hd
        simp [numberValue, NumberDataPoint.asDouble, NumberDataPoint.asInt]
      · simp [numberValue, NumberDataPoint.asDouble, hd]
    · simp [numberValue, NumberDataPoint.asDouble, NumberDataPoint.asInt]

theorem histogramValue_eq_sum (dp : SumDataPoint) :
    histogramValue dp = dp.sumValue := by
  by_cases h : dp.sumValue = 0
  · simp [histogramValue, h]
  · simp [histogramValue, h]

theorem pointTime_eq (t : Nat) : pointTime t = if t = 0 then 0 else t := by
  by_cases h : t = 0 <;> simp [pointTime, h]

/-- C6: for every decoded metric data point, histogram and summary points
expose the point's `sum` as the scalar value; gauge and sum points take
`as_double` when present, otherwise `as_int` promoted to double; and a
point with `time_unix_nano = 0` takes the epoch as its timestamp —
`_extract_data_points` coincides with the spec's description. -/
theorem extract_data_points_eq_spec (m : MetricData) :
    extract_data_points m = extract_data_points_spec m := by
  cases m with
  | gauge pts =>
    simp only [extract_data_points, extract_data_points_spec]
    exact List.map_congr_left fun dp _ => by
      rw [pointTime_eq, numberValue_eq_spec]
  | sum pts =>
    simp only [extract_data_points, extract_data_points_spec]
    exact List.map_congr_left fun dp _ => by
      rw [pointTime_eq, numberValue_eq_spec]
  | histogram pts =>
    simp only [extract_data_points, extract_data_points_spec]
    exact List.map_congr_left fun dp _ => by
      rw [pointTime_eq, histogramValue_eq_sum]
  | summary pts =>
    simp only [extract_data_points, extract_data_points_spec]
    exact List.map_congr_left fun dp _ => by
      rw [pointTime_eq, histogramValue_eq_sum]

theorem mem_watermark_processFile {env : FileEnv} {st : LoaderState} {key : String}
    {w : WatermarkEntry} (h : w ∈ st.watermark) :
    w ∈ (processFile env st key).watermark := by
  unfold processFile
  cases env key <;> simp [List.mem_append, h]

theorem process_cons (env : FileEnv) (st : LoaderState) (f : String) (fs : List String) :
    process_files_concurrent env st (f :: fs) =
      process_files_concurrent env (processFile env st f) fs := rfl

theorem mem_watermark_process {env : FileEnv} {st : LoaderState} {files : List String}
    {w : WatermarkEntry} (h : w ∈ st.watermark) :
    w ∈ (process_files_concurrent env st files).watermark := by
  induction files generalizing st with
  | nil => exact h
  | cons f fs ih => exact ih (mem_watermark_processFile h)

theorem processed_entry_of_mem {env : FileEnv} {st : LoaderState} {files : List String}
    {f : String} (h : f ∈ files) :
    ∃ w ∈ (process_files_concurrent env st files).watermark, w.filename = f := by
  induction files generalizing st with
  | nil => cases h
  | cons g gs ih =>
    rcases List.mem_cons.mp h with rfl | h'
    · have hpf : ∃ w ∈ (processFile env st f).watermark, w.filename = f := by
        unfold processFile
        cases henv : env f with
        | ok rows => exact ⟨⟨f, "done", rows.length, ""⟩, by simp, rfl⟩
        | error e => exact ⟨⟨f, "failed", 0, e⟩, by simp, rfl⟩
      obtain ⟨w, hw, hf⟩ := hpf
      rw [process_cons]
      exact ⟨w, mem_watermark_process hw, hf⟩
    · rw [process_cons]
      exact ih h'

theorem failed_entry_mem {env : FileEnv} {st : LoaderState} {files : List String}
    {key e : String} (hk : key ∈ files) (he : env key = .error e) :
    (⟨key, "failed", 0, e⟩ : WatermarkEntry) ∈
      (process_files_concurrent env st files).watermark := by
  induction files generalizing st with
  | nil => cases hk
  | cons g gs ih =>
    rcases List.mem_cons.mp hk with rfl | h'
    · rw [process_cons]
      apply mem_watermark_process
      unfold processFile
      rw [he]
      simp
    · rw [process_cons]
      exact ih h'

theorem processed_excluded {listing : List String} {wm : List WatermarkEntry}
    {key : String} (h : key ∈ get_processed_files wm) :
    key ∉ listing.filter (fun f => f ∉ get_processed_files wm) := by
  intro hmem
  have hp := (List.mem_filter.mp hmem).2
  simp only [decide_eq_true_eq] at hp
  exact hp h

/-- C7: a file whose download, decode, or insert raises gets a `failed`
watermark entry carrying the error message; the other files of the batch
are still processed (each ends with a watermark entry); and the file is
never automatically retried: its presence in the watermark table excludes
it from the new-files set of every subsequent poll cycle. -/
theorem failed_file_semantics (env : FileEnv) (st st' : LoaderState)
    (files : List String) (key e : String)
    (hk : key ∈ files) (he : env key = .error e)
    (hst : st' = process_files_concurrent env st files) :
    (⟨key, "failed", 0, e⟩ : WatermarkEntry) ∈ st'.watermark ∧
    (∀ f ∈ files, ∃ w ∈ st'.watermark, w.filename = f) ∧
    ∀ listing : List String,
      key ∉ listing.filter (fun f => f ∉ get_processed_files st'.watermark) := by
  subst hst
  refine ⟨failed_entry_mem hk he, fun f hf => processed_entry_of_mem hf, fun listing => ?_⟩
  apply processed_excluded
  exact List.mem_map_of_mem (f := WatermarkEntry.filename) (failed_entry_mem hk he)

/-- Witness for C7: a two-file batch where `bad.json` raises. -/
theorem failed_file_semantics_witness :
    (⟨"bad.json", "failed", 0, "decode error"⟩ : WatermarkEntry) ∈
      (process_files_concurrent
        (fun k => if k = "bad.json" then .error "decode error" else .ok ["r"])
        ⟨[], []⟩ ["bad.json", "good.json"]).watermark ∧
    (∀ f ∈ ["bad.json", "good.json"],
      ∃ w ∈ (process_files_concurrent
        (fun k => if k = "bad.json" then .error "decode error" else .ok ["r"])
        ⟨[], []⟩ ["bad.json", "good.json"]).watermark, w.filename = f) ∧
    ∀ listing : List String,
      "bad.json" ∉ listing.filter (fun f => f ∉ get_processed_files
        (process_files_concurrent
          (fun k => if k = "bad.json" then .error "decode error" else .ok ["r"])
          ⟨[], []⟩ ["bad.json", "good.json"]).watermark) :=
  failed_file_semantics
    (fun k => if k = "bad.json" then .error "decode error" else .ok ["r"])
    ⟨[], []⟩ _ ["bad.json", "good.json"] "bad.json" "decode error"
    (by decide) rfl rfl

theorem mem_processed_mono {env : FileEnv} {st : LoaderState} {files : List String}
    {f : String} (h : f ∈ get_processed_files st.watermark) :
    f ∈ get_processed_files (process_files_concurrent env st files).watermark := by
  obtain ⟨w, hw, hf⟩ := List.mem_map.mp h
  exact List.mem_map.mpr ⟨w, mem_watermark_process hw, hf⟩

theorem cycle_covers (env : FileEnv) (listing : List String) (st : LoaderState) :
    ∀ f ∈ listing, f ∈ get_processed_files (signal_cycle env listing st).watermark := by
  intro f hf
  by_cases hp : f ∈ get_processed_files st.watermark
  · unfold signal_cycle
    exact mem_processed_mono hp
  · unfold signal_cycle
    have hfm : f ∈ listing.filter (fun g => g ∉ get_processed_files st.watermark) := by
      refine List.mem_filter.mpr ⟨hf, ?_⟩
      exact decide_eq_true hp
    have hex : ∃ w ∈ (process_files_concurrent env st
        (listing.filter (fun g => g ∉ get_processed_files st.watermark))).watermark,
        w.filename = f := processed_entry_of_mem hfm
    obtain ⟨w, hw, hfn⟩ := hex
    exact List.mem_map.mpr ⟨w, hw, hfn⟩

theorem cycle_of_covered (env : FileEnv) (listing : List String) (st : LoaderState)
    (h : ∀ f ∈ listing, f ∈ get_processed_files st.watermark) :
    signal_cycle env listing st = st := by
  unfold signal_cycle
  have hnil : listing.filter (fun f => f ∉ get_processed_files st.watermark) = [] :=
    List.filter_eq_nil_iff.mpr (fun f hf => by simp [h f hf])
  rw [hnil]
  rfl

/-- C8: a poll cycle over a listing whose every file already has a watermark
entry performs zero inserts and leaves the state unchanged; consequently,
for any starting state, a second cycle over the same listing with no new
files added changes nothing, so the total number of inserted rows after
cycle 2 equals the total after cycle 1. -/
theorem cycle_idempotent (env : FileEnv) (listing : List String) (st : LoaderState) :
    ((∀ f ∈ listing, f ∈ get_processed_files st.watermark) →
      signal_cycle env listing st = st) ∧
    signal_cycle env listing (signal_cycle env listing st) =
      signal_cycle env listing st ∧
    (signal_cycle env listing (signal_cycle env listing st)).warehouse.length =
      (signal_cycle env listing st).warehouse.length := by
  refine ⟨cycle_of_covered env listing st, ?_, ?_⟩
  · exact cycle_of_covered env listing _ (cycle_covers env listing st)
  · rw [cycle_of_covered env listing _ (cycle_covers env listing st)]

/-- Witness for C8: a one-file listing whose file is already recorded. -/
theorem cycle_idempotent_witness :
    signal_cycle (fun _ => .ok ["row"]) ["a.json"]
      ⟨[⟨"a.json", "done", 1, ""⟩], ["row"]⟩ =
      ⟨[⟨"a.json", "done", 1, ""⟩], ["row"]⟩ :=
  (cycle_idempotent (fun _ => .ok ["row"]) ["a.json"]
      ⟨[⟨"a.json", "done", 1, ""⟩], ["row"]⟩).1 (by decide)

end Loader

namespace Sessions

theorem lookup_filter_ne (sid : String) (regs : List (String × Descriptor)) :
    (regs.filter (fun p => p.1 ≠ sid)).lookup sid = none := by
  induction regs with
  | nil => rfl
  | cons p ps ih =>
    rw [List.filter_cons]
    by_cases h : p.1 = sid
    · have hd : (decide (p.1 ≠ sid)) = false := by simp [h]
      rw [hd]
      simpa using ih
    · have hd : (decide (p.1 ≠ sid)) = true := by simp [h]
      rw [hd]
      have hb : (sid == p.1) = false := beq_eq_false_iff_ne.mpr (fun hs => h hs.symm)
      simp only [if_true, List.lookup, hb]
      exact ih

/-- C2: the scheduled background task `_run_build` calls `build_session`
with a `db_path` keyword that the imported
`build_session(session_id, services, signal_types, start, end)` does not
accept, so the call never binds; the TypeError is caught by `_run_build`,
and every session created via `create_session` ends with status `error`
(with an error message recorded) and never reaches status `ready`. -/
theorem run_build_always_errors :
    ("db_path" ∈ run_build_kwargs ∧ "db_path" ∉ build_session_params ∧
      python_call_ok build_session_params run_build_kwargs = false) ∧
    ∀ buildOutcome : Except String Unit,
      (run_build buildOutcome create_session).status = "error" ∧
      (run_build buildOutcome create_session).status ≠ "ready" ∧
      ((run_build buildOutcome create_session).error).isSome = true := by
  refine ⟨by decide, fun o => ?_⟩
  have h : python_call_ok build_session_params run_build_kwargs = false := by decide
  unfold run_build
  rw [h, if_neg Bool.false_ne_true]
  refine ⟨rfl, by decide, rfl⟩

/-- Counterexample to C9 as stated: after `build_session` materializes
session `abc`, the delete endpoint leaves the `session_abc` database on the
session ClickHouse — delete does not tear down the database objects of the
materialization. -/
theorem delete_leaves_session_db :
    "session_abc" ∈
      (delete_session "abc" (build_session_effect "abc" initialState)).sessionDbs := by
  decide

/-- C9 amended: `delete` removes the descriptor and the session's
`<id>.duckdb` / `<id>.duckdb.wal` files, so a subsequent `get` of that id
returns not-found; it leaves the `session_<id>` database objects untouched,
and only the separate `drop_session` (which `delete` never calls) removes
the database objects under the session namespace. -/
theorem delete_and_drop_semantics (sid : String) (st : PlatformState) :
    get_session sid (delete_session sid st) = none ∧
    (sid ++ ".duckdb") ∉ (delete_session sid st).sessionFiles ∧
    (sid ++ ".duckdb.wal") ∉ (delete_session sid st).sessionFiles ∧
    (delete_session sid st).sessionDbs = st.sessionDbs ∧
    ("session_" ++ sid) ∉ (drop_session sid st).sessionDbs := by
  refine ⟨lookup_filter_ne sid st.registry, ?_, ?_, rfl, ?_⟩
  · intro hmem
    have h := (List.mem_filter.mp hmem).2
    simp only [decide_eq_true_eq] at h
    exact h.1 rfl
  · intro hmem
    have h := (List.mem_filter.mp hmem).2
    simp only [decide_eq_true_eq] at h
    exact h.2 rfl
  · intro hmem
    have h := (List.mem_filter.mp hmem).2
    simp only [decide_eq_true_eq] at h
    exact h rfl

set_option maxRecDepth 8000 in
/-- Counterexample to C1 as stated: on scenario 8.5's warehouse — 50 spans
matching `{services: ["auth-service"], signal_types: ["traces"]}` inside the
window and 200 non-matching spans in the same date partitions —
`build_session` reports `counts.traces = 250`, not 50: partition shipping
copies whole date partitions and ignores the service filter. -/
theorem build_session_scenario_counts :
    build_session_counts scenarioMaster ["auth-service"] ["traces"] 0 0 "traces" =
      some 250 ∧ (some 250 : Option Nat) ≠ some 50 := by
  refine ⟨?_, by decide⟩
  decide

/-- C1 amended: the materialized session target contains exactly the source
warehouse rows whose date partition overlaps the window, for each selected
signal type, regardless of the services filter and with no row cap; the
reported count is the size of that set, and it is independent of the
services argument. -/
theorem build_session_partition_copy (master : Master)
    (services services2 : List String) (signal_types : List String)
    (s e : Nat) (signal table : String)
    (h1 : tableOf signal = some table) (h2 : signal ∈ signal_types) :
    session_rows master services signal_types s e signal =
      (master table).filter (fun r => r.day ∈ date_range s e) ∧
    build_session_counts master services signal_types s e signal =
      some ((master table).filter (fun r => r.day ∈ date_range s e)).length ∧
    build_session_counts master services signal_types s e signal =
      build_session_counts master services2 signal_types s e signal := by
  unfold session_rows build_session_counts shipped_rows
  rw [h1]
  simp [h2]

/-- Witness for C1's amended claim on the scenario warehouse. -/
theorem build_session_partition_copy_witness :
    session_rows scenarioMaster ["auth-service"] ["traces"] 0 0 "traces" =
      (scenarioMaster "otel_traces").filter (fun r => r.day ∈ date_range 0 0) :=
  (build_session_partition_copy scenarioMaster ["auth-service"] []
    ["traces"] 0 0 "traces" "otel_traces" rfl (by decide)).1

theorem lookup_build_manifest (env : String → TableQueries) (t : String)
    (ht : t ∈ TABLES) :
    (build_manifest env).lookup t = manifest_entry (env t) := by
  have ht3 : t = "otel_traces" ∨ t = "otel_logs" ∨ t = "otel_metrics" := by
    simpa [TABLES] using ht
  unfold build_manifest TABLES
  rcases ht3 with rfl | rfl | rfl
  · cases h1 : manifest_entry (env "otel_traces") <;>
      cases h2 : manifest_entry (env "otel_logs") <;>
      cases h3 : manifest_entry (env "otel_metrics") <;>
      simp [List.filterMap_cons, h1, h2, h3, List.lookup]
  · cases h1 : manifest_entry (env "otel_traces") <;>
      cases h2 : manifest_entry (env "otel_logs") <;>
      cases h3 : manifest_entry (env "otel_metrics") <;>
      simp [List.filterMap_cons, h1, h2, h3, List.lookup]
  · cases h1 : manifest_entry (env "otel_traces") <;>
      cases h2 : manifest_entry (env "otel_logs") <;>
      cases h3 : manifest_entry (env "otel_metrics") <;>
      simp [List.filterMap_cons, h1, h2, h3, List.lookup]

theorem manifest_entry_sample_le (q : TableQueries) (m : ManifestEntry)
    (hm : manifest_entry q = some m) : m.sample_rows.length ≤ 3 := by
  unfold manifest_entry at hm
  split at hm
  · cases hm
  · split at hm
    · cases hm
    · split at hm
      · cases hm
      · split at hm
        · cases hm
        · split at hm
          · cases hm
            simp only [List.length_map]
            exact List.length_take_le 3 _
          · cases hm

/-- C10: `_build_manifest` includes a table exactly when its count query
succeeds with a nonzero count and its columns and sample queries succeed;
zero-row tables and tables whose queries raise are silently omitted, and
each included entry carries at most 3 sample rows with every value
stringified. -/
theorem build_manifest_semantics (env : String → TableQueries) (t : String)
    (ht : t ∈ TABLES) :
    ((build_manifest env).lookup t = manifest_entry (env t)) ∧
    (∀ e, (env t).count = .error e → manifest_entry (env t) = none) ∧
    ((env t).count = .ok 0 → manifest_entry (env t) = none) ∧
    (∀ e c, (env t).count = .ok c → (env t).cols = .error e →
      manifest_entry (env t) = none) ∧
    (∀ e c cols, (env t).count = .ok c → (env t).cols = .ok cols →
      (env t).sample = .error e → manifest_entry (env t) = none) ∧
    (∀ c cols names rows, (env t).count = .ok c → c ≠ 0 →
      (env t).cols = .ok cols → (env t).sample = .ok (names, rows) →
      ((rows.take 3).all (fun r => r.length ≤ names.length)) = true →
      manifest_entry (env t) =
        some { row_count := c, columns := cols,
               sample_rows := (rows.take 3).map
                 (fun r => (names.zip r).map (fun p => (p.1, CHVal.toStr p.2))) }) ∧
    (∀ m, manifest_entry (env t) = some m → m.sample_rows.length ≤ 3) := by
  refine ⟨lookup_build_manifest env t ht, ?_, ?_, ?_, ?_, ?_, ?_⟩
  · intro e he
    unfold manifest_entry
    rw [he]
  · intro h0
    unfold manifest_entry
    rw [h0]
    simp
  · intro e c hc hcols
    unfold manifest_entry
    rw [hc, hcols]
    by_cases h0 : c = 0 <;> simp [h0]
  · intro e c cols hc hcols hs
    unfold manifest_entry
    rw [hc, hcols, hs]
    by_cases h0 : c = 0 <;> simp [h0]
  · intro c cols names rows hc h0 hcols hs hwf
    unfold manifest_entry
    rw [hc, hcols, hs]
    simp [h0, hwf]
  · exact fun m hm => manifest_entry_sample_le (env t) m hm

/-- Witness for C10 on a concrete query environment. -/
theorem build_manifest_semantics_witness :
    (build_manifest (fun _ => sampleQueries)).lookup "otel_traces" =
      manifest_entry sampleQueries :=
  (build_manifest_semantics (fun _ => sampleQueries) "otel_traces" (by decide)).1

end Sessions
